import Mathlib

/-!
Shallow embedding of the balance-normalization pipeline from
`src/problem3/src/components/WalletDemo.tsx` and of the three `sum_to_n`
implementations from the problem-1 source file.

JavaScript numbers are modelled as exact rationals (`ℚ`), since every
arithmetic operation the pipeline performs (comparison with 0, integer
subtraction of priorities, multiplication by a price) is used by the
source only as ideal decimal arithmetic.  JavaScript `Record<string, T>`
tables are modelled as association lists with first-match lookup
(`List.lookup`), matching property lookup on an object literal with
distinct keys, and `x ?? d` is modelled by `Option.getD`.
`Array.prototype.sort` with a consistent comparator is, per the
ECMAScript specification, a stable sort; it is modelled here by a
left-fold insertion sort that inserts each later element after all
earlier elements the comparator does not order strictly after it, which
is stable and agrees with every stable sort on consistent comparators.
-/

/-- `interface WalletBalance` from WalletDemo.tsx: `currency`, `amount`,
`blockchain`. -/
structure WalletBalance where
  currency : String
  amount : ℚ
  blockchain : String
deriving DecidableEq

/-- The intermediate record produced by `balancesWithPriority` in
`OptimizedWalletPage`: a `WalletBalance` together with its resolved
`priority`. -/
structure BalanceWithPriority where
  currency : String
  amount : ℚ
  blockchain : String
  priority : Int
deriving DecidableEq

/-- `interface FormattedWalletBalance` from WalletDemo.tsx: the enriched
output record with `formatted` string and `usdValue`. -/
structure FormattedWalletBalance where
  currency : String
  amount : ℚ
  blockchain : String
  priority : Int
  formatted : String
  usdValue : ℚ
deriving DecidableEq

/-- The constant table `BLOCKCHAIN_PRIORITIES` from `OptimizedWalletPage`
(also the arms of the `switch` in the problematic version's
`getPriority`). -/
def BLOCKCHAIN_PRIORITIES : List (String × Int) :=
  [("Osmosis", 100), ("Ethereum", 50), ("Arbitrum", 30),
   ("Zilliqa", 20), ("Neo", 20)]

/-- `getPriority` from `OptimizedWalletPage`:
`BLOCKCHAIN_PRIORITIES[blockchain] ?? -99`, with the priority table made
an explicit parameter. -/
def getPriority (priorities : List (String × Int)) (blockchain : String) : Int :=
  (priorities.lookup blockchain).getD (-99)

/-- `balancesWithPriority` from `OptimizedWalletPage`: map each balance to
the record extended with its resolved priority. -/
def balancesWithPriority (priorities : List (String × Int))
    (balances : List WalletBalance) : List BalanceWithPriority :=
  balances.map (fun b =>
    { currency := b.currency, amount := b.amount, blockchain := b.blockchain,
      priority := getPriority priorities b.blockchain })

/-- The sort comparator of `OptimizedWalletPage.sortedBalances`:
`if (a.priority !== b.priority) return b.priority - a.priority; return 0`. -/
def comparator (a b : BalanceWithPriority) : Int :=
  if a.priority ≠ b.priority then b.priority - a.priority else 0

/-- One insertion step of the stable comparator sort: the new element `x`
is placed before the first existing element `y` with `c x y < 0` and after
every earlier element the comparator ties with or orders before `x`. -/
def jsInsert {α : Type} (c : α → α → Int) (x : α) : List α → List α
  | [] => [x]
  | y :: ys => if c x y < 0 then x :: y :: ys else y :: jsInsert c x ys

/-- `Array.prototype.sort(c)` for a consistent comparator `c`: a stable
sort, realised as a left fold of stable insertions. -/
def jsStableSort {α : Type} (c : α → α → Int) (l : List α) : List α :=
  l.foldl (fun acc x => jsInsert c x acc) []

/-- `sortedBalances` from `OptimizedWalletPage`: filter to strictly
positive amounts, then sort by the comparator. -/
def sortedBalances (priorities : List (String × Int))
    (balances : List WalletBalance) : List BalanceWithPriority :=
  jsStableSort comparator
    ((balancesWithPriority priorities balances).filter
      (fun b => decide (0 < b.amount)))

/-- `Number.prototype.toFixed(2)` on an exact rational: round `|x| * 100`
to the nearest integer (ties away from zero toward the larger candidate,
as the ECMAScript `toFixed` algorithm picks the larger `n`), then render
with exactly two digits after the decimal point. -/
def toFixed2 (x : ℚ) : String :=
  let s := if x < 0 then "-" else ""
  let n : ℕ := (Int.floor (|x| * 100 + 1 / 2)).toNat
  s ++ toString (n / 100) ++ "." ++
    (if n % 100 < 10 then "0" else "") ++ toString (n % 100)

/-- `formattedBalances` from `OptimizedWalletPage` — the full normalizer
output: each sorted balance enriched with
`usdValue = (prices[currency] ?? 0) * amount` and
`formatted = amount.toFixed(2)`. -/
def formattedBalances (prices : List (String × ℚ))
    (priorities : List (String × Int))
    (balances : List WalletBalance) : List FormattedWalletBalance :=
  (sortedBalances priorities balances).map (fun b =>
    { currency := b.currency, amount := b.amount, blockchain := b.blockchain,
      priority := b.priority, formatted := toFixed2 b.amount,
      usdValue := ((prices.lookup b.currency).getD 0) * b.amount })

/-- `getPriority` of `ProblematicWalletPage`: the `switch` over blockchain
names with `default: return -99`. -/
def getPrioritySwitch (blockchain : String) : Int :=
  match blockchain with
  | "Osmosis" => 100
  | "Ethereum" => 50
  | "Arbitrum" => 30
  | "Zilliqa" => 20
  | "Neo" => 20
  | _ => -99

/-- The filter predicate of `ProblematicWalletPage.sortedBalances`:
`if (balancePriority > -99) { if (balance.amount <= 0) return true; }
return false`. -/
def problematicFilter (b : WalletBalance) : Bool :=
  if getPrioritySwitch b.blockchain > -99 then
    if b.amount ≤ 0 then true else false
  else false

/-- The sort comparator of `ProblematicWalletPage.sortedBalances`:
`-1` when the left priority is larger, `1` when the right one is, else
`0`. -/
def problematicComparator (lhs rhs : WalletBalance) : Int :=
  if getPrioritySwitch lhs.blockchain > getPrioritySwitch rhs.blockchain then -1
  else if getPrioritySwitch rhs.blockchain > getPrioritySwitch lhs.blockchain then 1
  else 0

/-- `sortedBalances` of `ProblematicWalletPage`: the inverted filter
followed by the sort. -/
def problematicSortedBalances (balances : List WalletBalance) :
    List WalletBalance :=
  jsStableSort problematicComparator (balances.filter problematicFilter)

/-- `sum_to_n_a` from problem 1: `for (let i = 1; i <= n; i++) sum += i`,
the loop iterating over `1, …, n`. -/
def sum_to_n_a (n : ℕ) : ℕ :=
  (List.range' 1 n).foldl (fun sum i => sum + i) 0

/-- The `while (i <= n)` loop body of `sum_to_n_b`, with the loop state
`sum` and `i` explicit. -/
def sumToNLoop (n : ℕ) (sum i : ℕ) : ℕ :=
  if i ≤ n then sumToNLoop n (sum + i) (i + 1) else sum
termination_by n + 1 - i

/-- `sum_to_n_b` from problem 1: `sum = 0; i = 1; while (i <= n) { sum += i;
i++ }`. -/
def sum_to_n_b (n : ℕ) : ℕ :=
  sumToNLoop n 0 1

/-- `sum_to_n_c` from problem 1:
`Array.from({length: n}, (_, i) => i + 1).reduce((total, num) => total + num, 0)`. -/
def sum_to_n_c (n : ℕ) : ℕ :=
  ((List.range n).map (fun i => i + 1)).foldl (fun total num => total + num) 0

/-!
Dynamic-semantics model for the malformed-amount question.  The
TypeScript types declare `amount: number`, but at runtime a caller can
pass any JavaScript value; the pipeline performs no validation.  A value
is modelled as either a number or a string.  `ToNumber` on strings
follows the ECMAScript `StringNumericLiteral` grammar in full:
surrounding whitespace, the empty string (value 0), optionally signed
decimal literals with optional fraction and exponent part, optionally
signed `Infinity`, and the unsigned `0b`/`0o`/`0x` integer forms; every
other string is NaN.  Finite values are kept as exact rationals — the
same idealisation of binary64 used throughout this file (no rounding,
overflow or underflow), under which a finite literal classifies for the
filter comparison by its exact sign.  `amount > 0` follows the abstract
relational comparison (`false` on NaN and -Infinity, `true` on
+Infinity and positive values), and `amount.toFixed(2)` on a string
throws a `TypeError` because strings have no `toFixed` method.
-/

/-- A JavaScript value reaching the pipeline's `amount` field at runtime:
a number or a (possibly non-numeric) string. -/
inductive JSValue where
  | num : ℚ → JSValue
  | str : String → JSValue
deriving DecidableEq

/-- The result of `ToNumber`: NaN, an infinity, or a finite value
(modelled exactly). -/
inductive JSNumber where
  | nan : JSNumber
  | posInf : JSNumber
  | negInf : JSNumber
  | val : ℚ → JSNumber
deriving DecidableEq

/-- The ECMAScript `StrWhiteSpaceChar` set: WhiteSpace (TAB, VT, FF, SP,
NBSP, ZWNBSP and the Unicode space separators) and the LineTerminator
code points. -/
def isStrWhiteSpace (c : Char) : Bool :=
  [0x9, 0xA, 0xB, 0xC, 0xD, 0x20, 0xA0, 0x1680, 0x2028, 0x2029,
    0x202F, 0x205F, 0x3000, 0xFEFF].contains c.toNat ||
  (0x2000 ≤ c.toNat && c.toNat ≤ 0x200A)

/-- Leading and trailing `StrWhiteSpace` removal on a character list (the
`StringToNumber` algorithm ignores surrounding whitespace). -/
def trimChars (cs : List Char) : List Char :=
  ((cs.dropWhile isStrWhiteSpace).reverse.dropWhile isStrWhiteSpace).reverse

/-- Numeric value of a decimal or hexadecimal digit character. -/
def digitVal (c : Char) : ℕ :=
  if c.isDigit then c.toNat - 48
  else if 'a' ≤ c && c ≤ 'f' then c.toNat - 87
  else c.toNat - 55

/-- Value of a digit run in the given base (most significant first). -/
def digitsVal (base : ℕ) (cs : List Char) : ℕ :=
  cs.foldl (fun acc c => acc * base + digitVal c) 0

/-- Binary digit test for `0b` literals. -/
def isBinaryDigitChar (c : Char) : Bool := c = '0' || c = '1'

/-- Octal digit test for `0o` literals. -/
def isOctalDigitChar (c : Char) : Bool := '0' ≤ c && c ≤ '7'

/-- Hexadecimal digit test for `0x` literals. -/
def isHexDigitChar (c : Char) : Bool :=
  c.isDigit || ('a' ≤ c && c ≤ 'f') || ('A' ≤ c && c ≤ 'F')

/-- `ExponentPart` of a decimal literal: the empty tail means exponent
0; otherwise `e`/`E` followed by an optionally signed non-empty digit
run; any other tail invalidates the literal (`none`). -/
def parseExponent : List Char → Option ℤ
  | [] => some 0
  | c :: t =>
    if c = 'e' || c = 'E' then
      match t with
      | '+' :: d =>
        if !d.isEmpty && d.all Char.isDigit then
          some ((digitsVal 10 d : ℕ) : ℤ)
        else none
      | '-' :: d =>
        if !d.isEmpty && d.all Char.isDigit then
          some (-((digitsVal 10 d : ℕ) : ℤ))
        else none
      | d =>
        if !d.isEmpty && d.all Char.isDigit then
          some ((digitsVal 10 d : ℕ) : ℤ)
        else none
    else none

/-- `StrUnsignedDecimalLiteral` with the sign already factored out:
`Infinity`, or decimal digits with optional fraction and exponent part
(`digits`, `digits.`, `digits.digits`, `.digits`, each with an optional
exponent); anything else is NaN. -/
def parseUnsignedDecimal (sign : ℚ) (body : List Char) : JSNumber :=
  if body = "Infinity".toList then
    if sign < 0 then JSNumber.negInf else JSNumber.posInf
  else
    let intPart := body.takeWhile Char.isDigit
    let rest := body.dropWhile Char.isDigit
    match rest with
    | '.' :: tail =>
      let frac := tail.takeWhile Char.isDigit
      let rest2 := tail.dropWhile Char.isDigit
      if intPart.isEmpty && frac.isEmpty then JSNumber.nan
      else
        match parseExponent rest2 with
        | some e => JSNumber.val (sign *
            ((digitsVal 10 intPart : ℚ) +
              (digitsVal 10 frac : ℚ) / 10 ^ frac.length) * 10 ^ e)
        | none => JSNumber.nan
    | _ =>
      if intPart.isEmpty then JSNumber.nan
      else
        match parseExponent rest with
        | some e =>
          JSNumber.val (sign * (digitsVal 10 intPart : ℚ) * 10 ^ e)
        | none => JSNumber.nan

/-- ECMAScript `StringToNumber`: the whitespace-trimmed empty string is
`0`; a `0b`/`0o`/`0x` prefix selects an unsigned binary/octal/hex
integer literal (no sign, fraction or exponent allowed there); otherwise
an optionally signed decimal literal or `Infinity`; every other string
is NaN. -/
def parseDecimal (s : String) : JSNumber :=
  match trimChars s.toList with
  | [] => JSNumber.val 0
  | '0' :: c :: t =>
    if c = 'x' || c = 'X' then
      if !t.isEmpty && t.all isHexDigitChar then
        JSNumber.val ((digitsVal 16 t : ℕ) : ℚ)
      else JSNumber.nan
    else if c = 'o' || c = 'O' then
      if !t.isEmpty && t.all isOctalDigitChar then
        JSNumber.val ((digitsVal 8 t : ℕ) : ℚ)
      else JSNumber.nan
    else if c = 'b' || c = 'B' then
      if !t.isEmpty && t.all isBinaryDigitChar then
        JSNumber.val ((digitsVal 2 t : ℕ) : ℚ)
      else JSNumber.nan
    else parseUnsignedDecimal 1 ('0' :: c :: t)
  | '-' :: rest => parseUnsignedDecimal (-1) rest
  | '+' :: rest => parseUnsignedDecimal 1 rest
  | cs => parseUnsignedDecimal 1 cs

/-- ECMAScript `ToNumber` on the modelled values. -/
def jsToNumber : JSValue → JSNumber
  | JSValue.num q => JSNumber.val q
  | JSValue.str s => parseDecimal s

/-- The filter test `balance.amount > 0` under the abstract relational
comparison: `false` when the coercion is NaN or -Infinity, `true` on
+Infinity, and the exact comparison on finite values. -/
def jsGtZero (v : JSValue) : Bool :=
  match jsToNumber v with
  | JSNumber.nan => false
  | JSNumber.posInf => true
  | JSNumber.negInf => false
  | JSNumber.val q => decide (0 < q)

/-- Whether an `Except` result is a success. -/
def exceptIsOk {ε α : Type} : Except ε α → Bool
  | Except.ok _ => true
  | Except.error _ => false

/-- The runtime error raised when a method is called on a value that does
not have it, as `amount.toFixed(2)` does on a string. -/
inductive JSError where
  | typeError : JSError
deriving DecidableEq

/-- `WalletBalance` as it can actually arrive at runtime: the `amount`
field is an arbitrary value. -/
structure DynWalletBalance where
  currency : String
  amount : JSValue
  blockchain : String
deriving DecidableEq

/-- The intermediate dynamic record with its resolved priority. -/
structure DynBalanceWithPriority where
  currency : String
  amount : JSValue
  blockchain : String
  priority : Int
deriving DecidableEq

/-- The dynamic enriched output record. -/
structure DynFormattedBalance where
  currency : String
  amount : JSValue
  blockchain : String
  priority : Int
  formatted : String
  usdValue : ℚ
deriving DecidableEq

/-- The sort comparator of `OptimizedWalletPage` on the dynamic records
(it reads only the integer `priority` field). -/
def dynComparator (a b : DynBalanceWithPriority) : Int :=
  if a.priority ≠ b.priority then b.priority - a.priority else 0

/-- The enrichment map under dynamic semantics: `amount.toFixed(2)` on a
string throws a `TypeError`, which aborts the whole map at the first
offending element; on numbers it behaves as in the typed pipeline. -/
def dynEnrichAll (prices : List (String × ℚ)) :
    List DynBalanceWithPriority → Except JSError (List DynFormattedBalance)
  | [] => Except.ok []
  | b :: bs =>
    match b.amount with
    | JSValue.str _ => Except.error JSError.typeError
    | JSValue.num q =>
      match dynEnrichAll prices bs with
      | Except.error e => Except.error e
      | Except.ok rest => Except.ok
          ({ currency := b.currency, amount := b.amount,
             blockchain := b.blockchain, priority := b.priority,
             formatted := toFixed2 q,
             usdValue := ((prices.lookup b.currency).getD 0) * q } :: rest)

/-- The `OptimizedWalletPage` pipeline under dynamic semantics: priority
resolution, the coercing filter `amount > 0`, the stable sort, then
enrichment, whose `TypeError` (if any) is the only runtime failure. -/
def dynFormattedBalances (prices : List (String × ℚ))
    (priorities : List (String × Int))
    (balances : List DynWalletBalance) :
    Except JSError (List DynFormattedBalance) :=
  dynEnrichAll prices
    (jsStableSort dynComparator
      ((balances.map (fun b =>
        { currency := b.currency, amount := b.amount,
          blockchain := b.blockchain,
          priority := getPriority priorities b.blockchain :
          DynBalanceWithPriority })).filter
        (fun b => jsGtZero b.amount)))

/-! Helper lemmas about the comparator and the stable sort. -/

/-- The descending-priority ordering the optimized comparator realises. -/
abbrev priorityDesc (a b : BalanceWithPriority) : Prop :=
  b.priority ≤ a.priority

lemma comparator_lt_iff (x y : BalanceWithPriority) :
    comparator x y < 0 ↔ y.priority < x.priority := by
  simp only [comparator]
  split <;> omega

lemma mem_jsInsert {α : Type} (c : α → α → Int) (x z : α) (l : List α) :
    z ∈ jsInsert c x l ↔ z = x ∨ z ∈ l := by
  induction l with
  | nil => simp [jsInsert]
  | cons y ys ih =>
    simp only [jsInsert]
    split
    · simp [List.mem_cons]
    · simp [List.mem_cons, ih]
      tauto

lemma mem_foldl_jsInsert {α : Type} (c : α → α → Int) (l acc : List α) (z : α) :
    z ∈ l.foldl (fun a x => jsInsert c x a) acc ↔ z ∈ acc ∨ z ∈ l := by
  induction l generalizing acc with
  | nil => simp
  | cons x xs ih =>
    simp only [List.foldl_cons, ih, mem_jsInsert, List.mem_cons]
    tauto

lemma mem_jsStableSort {α : Type} (c : α → α → Int) (l : List α) (z : α) :
    z ∈ jsStableSort c l ↔ z ∈ l := by
  simp [jsStableSort, mem_foldl_jsInsert]

lemma pairwise_jsInsert (x : BalanceWithPriority) (l : List BalanceWithPriority)
    (hl : l.Pairwise priorityDesc) :
    (jsInsert comparator x l).Pairwise priorityDesc := by
  induction l with
  | nil => simp [jsInsert]
  | cons y ys ih =>
    rw [List.pairwise_cons] at hl
    obtain ⟨hy, hys⟩ := hl
    simp only [jsInsert]
    split
    case isTrue h =>
      rw [comparator_lt_iff] at h
      refine List.pairwise_cons.mpr ⟨?_, List.pairwise_cons.mpr ⟨hy, hys⟩⟩
      intro z hz
      rcases List.mem_cons.mp hz with rfl | hz
      · exact le_of_lt h
      · exact le_trans (hy z hz) (le_of_lt h)
    case isFalse h =>
      rw [comparator_lt_iff] at h
      push_neg at h
      refine List.pairwise_cons.mpr ⟨?_, ih hys⟩
      intro z hz
      rcases (mem_jsInsert comparator x z ys).mp hz with rfl | hz
      · exact h
      · exact hy z hz

lemma pairwise_foldl_jsInsert (l acc : List BalanceWithPriority)
    (hacc : acc.Pairwise priorityDesc) :
    (l.foldl (fun a x => jsInsert comparator x a) acc).Pairwise priorityDesc := by
  induction l generalizing acc with
  | nil => exact hacc
  | cons x xs ih => exact ih _ (pairwise_jsInsert x acc hacc)

lemma pairwise_jsStableSort (l : List BalanceWithPriority) :
    (jsStableSort comparator l).Pairwise priorityDesc :=
  pairwise_foldl_jsInsert l [] List.Pairwise.nil

lemma filter_jsInsert (p : Int) (x : BalanceWithPriority)
    (l : List BalanceWithPriority) (hl : l.Pairwise priorityDesc) :
    (jsInsert comparator x l).filter (fun z => decide (z.priority = p)) =
      l.filter (fun z => decide (z.priority = p)) ++
        (if x.priority = p then [x] else []) := by
  induction l with
  | nil =>
    simp only [jsInsert, List.filter, List.nil_append]
    split <;> simp_all
  | cons y ys ih =>
    rw [List.pairwise_cons] at hl
    obtain ⟨hy, hys⟩ := hl
    simp only [jsInsert]
    split
    case isTrue h =>
      rw [comparator_lt_iff] at h
      by_cases hxp : x.priority = p
      · have hfilter : (y :: ys).filter (fun z => decide (z.priority = p)) = [] := by
          rw [List.filter_eq_nil_iff]
          intro z hz
          rcases List.mem_cons.mp hz with rfl | hz
          · simp only [decide_eq_true_eq]
            omega
          · have := hy z hz
            simp only [decide_eq_true_eq]
            omega
        rw [List.filter_cons_of_pos (by simp [hxp]), hfilter]
        simp [hxp]
      · rw [List.filter_cons_of_neg (by simp [hxp])]
        simp [hxp]
    case isFalse h =>
      by_cases hyp : y.priority = p
      · rw [List.filter_cons_of_pos (by simp [hyp]),
          List.filter_cons_of_pos (by simp [hyp]), ih hys, List.cons_append]
      · rw [List.filter_cons_of_neg (by simp [hyp]),
          List.filter_cons_of_neg (by simp [hyp]), ih hys]

lemma filter_foldl_jsInsert (p : Int) (l acc : List BalanceWithPriority)
    (hacc : acc.Pairwise priorityDesc) :
    (l.foldl (fun a x => jsInsert comparator x a) acc).filter
        (fun z => decide (z.priority = p)) =
      acc.filter (fun z => decide (z.priority = p)) ++
        l.filter (fun z => decide (z.priority = p)) := by
  induction l generalizing acc with
  | nil => simp
  | cons x xs ih =>
    simp only [List.foldl_cons]
    rw [ih _ (pairwise_jsInsert x acc hacc), filter_jsInsert p x acc hacc]
    by_cases hxp : x.priority = p
    · simp [hxp, List.append_assoc]
    · simp [hxp]

lemma filter_jsStableSort (p : Int) (l : List BalanceWithPriority) :
    (jsStableSort comparator l).filter (fun z => decide (z.priority = p)) =
      l.filter (fun z => decide (z.priority = p)) := by
  unfold jsStableSort
  rw [filter_foldl_jsInsert p l [] List.Pairwise.nil]
  simp

/-! Helper lemmas for the three summation routines. -/

lemma foldl_add_from (l : List ℕ) (a : ℕ) :
    l.foldl (fun s i => s + i) a = a + l.foldl (fun s i => s + i) 0 := by
  induction l generalizing a with
  | nil => simp
  | cons x xs ih =>
    simp only [List.foldl_cons]
    rw [ih (a + x), ih (0 + x)]
    omega

lemma sumToNLoop_spec (n i sum : ℕ) :
    sumToNLoop n sum i =
      sum + (List.range' i (n + 1 - i)).foldl (fun s j => s + j) 0 := by
  unfold sumToNLoop
  split
  case isTrue h =>
    rw [sumToNLoop_spec n (i + 1) (sum + i)]
    have h1 : n + 1 - i = (n - i) + 1 := by omega
    have h2 : n + 1 - (i + 1) = n - i := by omega
    rw [h1, h2, List.range'_succ]
    simp only [List.foldl_cons, Nat.zero_add]
    rw [foldl_add_from (List.range' (i + 1) (n - i)) i]
    omega
  case isFalse h =>
    have h0 : n + 1 - i = 0 := by omega
    rw [h0]
    rfl
termination_by n + 1 - i

lemma sum_to_n_b_eq_a (n : ℕ) : sum_to_n_b n = sum_to_n_a n := by
  unfold sum_to_n_b sum_to_n_a
  rw [sumToNLoop_spec]
  simp

lemma sum_to_n_c_eq_a (n : ℕ) : sum_to_n_c n = sum_to_n_a n := by
  unfold sum_to_n_c sum_to_n_a
  rw [List.range'_eq_map_range]
  congr 1
  apply List.map_congr_left
  intro i _
  exact Nat.add_comm i 1

lemma sum_to_n_a_gauss (n : ℕ) : sum_to_n_a n = n * (n + 1) / 2 := by
  induction n with
  | zero => rfl
  | succ n ih =>
    unfold sum_to_n_a at ih ⊢
    rw [List.range'_concat, List.foldl_append]
    simp only [List.foldl_cons, List.foldl_nil]
    have key : (n + 1) * (n + 1 + 1) = n * (n + 1) + 2 * (n + 1) := by ring
    rw [key]
    obtain ⟨k, hk⟩ := Nat.even_mul_succ_self n
    omega

lemma priority_resolved (priorities : List (String × Int))
    (balances : List WalletBalance) :
    ∀ z ∈ sortedBalances priorities balances,
      z.priority = getPriority priorities z.blockchain := by
  intro z hz
  unfold sortedBalances at hz
  rw [mem_jsStableSort] at hz
  have hz' := (List.mem_filter.mp hz).1
  unfold balancesWithPriority at hz'
  obtain ⟨b, hb, rfl⟩ := List.mem_map.mp hz'
  rfl

/-! The claims. -/

/-- C1: for every input list of balance records (and any price and
priority tables), every element of the normalizer's output has
`amount > 0`, and no output element has `amount ≤ 0`. -/
theorem wallet_output_amount_positive (prices : List (String × ℚ))
    (priorities : List (String × Int)) (balances : List WalletBalance)
    (x : FormattedWalletBalance)
    (hx : x ∈ formattedBalances prices priorities balances) :
    0 < x.amount ∧ ¬x.amount ≤ 0 := by
  unfold formattedBalances at hx
  obtain ⟨b, hb, rfl⟩ := List.mem_map.mp hx
  unfold sortedBalances at hb
  rw [mem_jsStableSort] at hb
  have hpos := (List.mem_filter.mp hb).2
  simp only [decide_eq_true_eq] at hpos
  exact ⟨hpos, not_le.mpr hpos⟩

/-- Witness for C1 at a concrete run of the pipeline. -/
theorem wallet_output_amount_positive_witness :
    0 < ({ currency := "SWTH", amount := 10, blockchain := "Ethereum",
           priority := 50, formatted := "10.00", usdValue := 1 } :
          FormattedWalletBalance).amount ∧
    ¬({ currency := "SWTH", amount := 10, blockchain := "Ethereum",
        priority := 50, formatted := "10.00", usdValue := 1 } :
          FormattedWalletBalance).amount ≤ 0 :=
  wallet_output_amount_positive [("SWTH", 1/10)] [("Ethereum", 50)]
    [{ currency := "SWTH", amount := 10, blockchain := "Ethereum" }]
    _ (by
      norm_num [formattedBalances, sortedBalances, balancesWithPriority,
        jsStableSort, jsInsert, getPriority, toFixed2, List.lookup]
      decide)

/-- C2: for every input list, price table and priority table, the
normalizer's output is sorted by descending resolved priority: every
adjacent pair `(a, b)` satisfies `priority(a) ≥ priority(b)`. -/
theorem wallet_output_sorted_desc (prices : List (String × ℚ))
    (priorities : List (String × Int)) (balances : List WalletBalance) :
    List.Chain' (fun a b => getPriority priorities b.blockchain ≤
        getPriority priorities a.blockchain)
      (formattedBalances prices priorities balances) := by
  unfold formattedBalances
  rw [List.chain'_map]
  apply List.Pairwise.chain'
  have hsorted : (sortedBalances priorities balances).Pairwise priorityDesc := by
    unfold sortedBalances
    exact pairwise_jsStableSort _
  refine hsorted.imp_of_mem ?_
  intro a b ha hb hR
  show getPriority priorities b.blockchain ≤ getPriority priorities a.blockchain
  rw [← priority_resolved priorities balances a ha,
    ← priority_resolved priorities balances b hb]
  exact hR

/-- C3: the sort comparator applied to two records with equal resolved
priorities returns exactly `0` (it is total: the equal case is not
omitted). -/
theorem comparator_equal_priority_zero (a b : BalanceWithPriority)
    (h : a.priority = b.priority) : comparator a b = 0 := by
  simp [comparator, h]

/-- Witness for C3 on two concrete equal-priority records. -/
theorem comparator_equal_priority_zero_witness :
    comparator
      { currency := "ZIL", amount := 1, blockchain := "Zilliqa", priority := 20 }
      { currency := "NEO", amount := 2, blockchain := "Neo", priority := 20 } =
      0 :=
  comparator_equal_priority_zero
    { currency := "ZIL", amount := 1, blockchain := "Zilliqa", priority := 20 }
    { currency := "NEO", amount := 2, blockchain := "Neo", priority := 20 }
    rfl

/-- C4 counterexample: a chain absent from the priority table does
receive the sentinel `-99`, but `-99` is not identical to the lowest
explicitly configured priority of the reference table, which is `20`
(held by Zilliqa and Neo); the sentinel is a strictly smaller value that
appears nowhere in the table. -/
theorem getPriority_sentinel_counterexample :
    getPriority BLOCKCHAIN_PRIORITIES "Bitcoin" = -99 ∧
    (∀ v ∈ BLOCKCHAIN_PRIORITIES.map Prod.snd, 20 ≤ v) ∧
    20 ∈ BLOCKCHAIN_PRIORITIES.map Prod.snd ∧
    getPriority BLOCKCHAIN_PRIORITIES "Bitcoin" ≠ 20 := by
  refine ⟨by decide, by decide, by decide, by decide⟩

/-- C4 (amended): priority resolution returns `priorities[record.chain]`
when the chain is present and the sentinel `-99` when it is absent; the
sentinel is strictly below every explicitly configured priority of the
reference table (rather than equal to the lowest configured one). -/
theorem getPriority_resolution (priorities : List (String × Int))
    (chain : String) :
    (∀ v : Int, priorities.lookup chain = some v →
      getPriority priorities chain = v) ∧
    (priorities.lookup chain = none → getPriority priorities chain = -99) ∧
    (∀ e ∈ BLOCKCHAIN_PRIORITIES, -99 < e.2) := by
  refine ⟨?_, ?_, by decide⟩
  · intro v h
    simp [getPriority, h]
  · intro h
    simp [getPriority, h]

/-- Witness for C4 (amended): a present chain resolves to its table
entry, an absent chain to `-99`. -/
theorem getPriority_resolution_witness :
    getPriority BLOCKCHAIN_PRIORITIES "Osmosis" = 100 ∧
    getPriority BLOCKCHAIN_PRIORITIES "Bitcoin" = -99 :=
  ⟨(getPriority_resolution BLOCKCHAIN_PRIORITIES "Osmosis").1 100 (by decide),
   (getPriority_resolution BLOCKCHAIN_PRIORITIES "Bitcoin").2.1 (by decide)⟩

/-- C5: every output element carries
`usdValue = amount * (prices[currency] ?? 0)` and
`formatted = toFixed2 amount`; a currency absent from the price table
yields `usdValue = 0` and no error is raised (the pipeline is total). -/
theorem wallet_enrichment (prices : List (String × ℚ))
    (priorities : List (String × Int)) (balances : List WalletBalance)
    (x : FormattedWalletBalance)
    (hx : x ∈ formattedBalances prices priorities balances) :
    x.usdValue = x.amount * (prices.lookup x.currency).getD 0 ∧
    x.formatted = toFixed2 x.amount ∧
    (prices.lookup x.currency = none → x.usdValue = 0) := by
  unfold formattedBalances at hx
  obtain ⟨b, hb, rfl⟩ := List.mem_map.mp hx
  refine ⟨?_, rfl, ?_⟩
  · show ((prices.lookup b.currency).getD 0) * b.amount =
      b.amount * ((prices.lookup b.currency).getD 0)
    exact mul_comm _ _
  · intro h
    show ((prices.lookup b.currency).getD 0) * b.amount = 0
    rw [h]
    simp

/-- Witness for C5 at a concrete run whose record's currency is absent
from the price table: the element is enriched with `usdValue = 0`. -/
theorem wallet_enrichment_witness :
    (({ currency := "ETH", amount := 2, blockchain := "Ethereum",
        priority := 50, formatted := "2.00", usdValue := 0 } :
        FormattedWalletBalance).usdValue =
      ({ currency := "ETH", amount := 2, blockchain := "Ethereum",
         priority := 50, formatted := "2.00", usdValue := 0 } :
         FormattedWalletBalance).amount *
        (([("SWTH", (1 : ℚ)/10)].lookup "ETH").getD 0)) ∧
    (({ currency := "ETH", amount := 2, blockchain := "Ethereum",
        priority := 50, formatted := "2.00", usdValue := 0 } :
        FormattedWalletBalance).formatted = toFixed2 2) ∧
    (({ currency := "ETH", amount := 2, blockchain := "Ethereum",
        priority := 50, formatted := "2.00", usdValue := 0 } :
        FormattedWalletBalance).usdValue = 0) := by
  have H := wallet_enrichment [("SWTH", (1 : ℚ)/10)] [("Ethereum", 50)]
    [{ currency := "ETH", amount := 2, blockchain := "Ethereum" }]
    { currency := "ETH", amount := 2, blockchain := "Ethereum",
      priority := 50, formatted := "2.00", usdValue := 0 }
    (by
      norm_num [formattedBalances, sortedBalances, balancesWithPriority,
        jsStableSort, jsInsert, getPriority, toFixed2, List.lookup]
      decide)
  exact ⟨H.1, H.2.1, H.2.2 (by decide)⟩

/-- C6 counterexample: on an input whose only record has the non-numeric
amount `"abc"`, the pipeline does not fail at all, let alone fail fast
with an `InvalidInput` failure: the malformed amount is silently coerced
to NaN by the filter comparison and the record is silently dropped,
yielding a successful empty result. -/
theorem dyn_malformed_silent_counterexample :
    dynFormattedBalances [("SWTH", 1/10)] [("Ethereum", 50)]
      [{ currency := "SWTH", amount := JSValue.str "abc",
         blockchain := "Ethereum" }] = Except.ok [] := by
  rfl

lemma dyn_single_str_excluded (prices : List (String × ℚ))
    (priorities : List (String × Int)) (c s chain : String)
    (h : jsGtZero (JSValue.str s) = false) :
    dynFormattedBalances prices priorities
      [{ currency := c, amount := JSValue.str s, blockchain := chain }] =
      Except.ok [] := by
  unfold dynFormattedBalances
  simp only [List.map_cons, List.map_nil]
  rw [List.filter_cons_of_neg (by simp [h])]
  rfl

lemma dyn_single_str_typeError (prices : List (String × ℚ))
    (priorities : List (String × Int)) (c s chain : String)
    (h : jsGtZero (JSValue.str s) = true) :
    dynFormattedBalances prices priorities
      [{ currency := c, amount := JSValue.str s, blockchain := chain }] =
      Except.error JSError.typeError := by
  unfold dynFormattedBalances
  simp only [List.map_cons, List.map_nil]
  rw [List.filter_cons_of_pos (by simp [h])]
  rfl

lemma dynEnrichAll_numeric_isOk (prices : List (String × ℚ))
    (l : List DynBalanceWithPriority)
    (h : ∀ b ∈ l, ∃ q : ℚ, b.amount = JSValue.num q) :
    exceptIsOk (dynEnrichAll prices l) = true := by
  induction l with
  | nil => rfl
  | cons b bs ih =>
    obtain ⟨q, hq⟩ := h b (List.mem_cons_self b bs)
    have hbs := ih (fun x hx => h x (List.mem_cons_of_mem b hx))
    unfold dynEnrichAll
    rw [hq]
    dsimp only
    cases hE : dynEnrichAll prices bs with
    | error e =>
      rw [hE] at hbs
      simp [exceptIsOk] at hbs
    | ok rest => rfl

lemma dynFormattedBalances_numeric_isOk (prices : List (String × ℚ))
    (priorities : List (String × Int)) (balances : List DynWalletBalance)
    (h : ∀ b ∈ balances, ∃ q : ℚ, b.amount = JSValue.num q) :
    exceptIsOk (dynFormattedBalances prices priorities balances) = true := by
  unfold dynFormattedBalances
  apply dynEnrichAll_numeric_isOk
  intro b hb
  rw [mem_jsStableSort] at hb
  have hb1 := (List.mem_filter.mp hb).1
  obtain ⟨a, ha, rfl⟩ := List.mem_map.mp hb1
  obtain ⟨q, hq⟩ := h a ha
  exact ⟨q, hq⟩

/-- C6 (amended): the pipeline performs no `InvalidInput` validation.  A
record whose non-numeric amount coerces to NaN or to a non-positive
number (including -Infinity) is silently excluded by the coercing filter
and the call succeeds; a non-numeric amount coercing to a positive
number (or +Infinity) passes the filter and the enrichment step then
throws a `TypeError` — not an `InvalidInput` failure — when `toFixed`
is called on it; and the other degradations, missing price and missing
priority, are absorbed locally and never thrown: on any all-numeric
input the call succeeds whatever the two tables contain. -/
theorem dyn_malformed_no_invalid_input (prices : List (String × ℚ))
    (priorities : List (String × Int)) (c s chain : String) :
    ((jsToNumber (JSValue.str s) = JSNumber.nan ∨
      jsToNumber (JSValue.str s) = JSNumber.negInf ∨
      (∃ q : ℚ, jsToNumber (JSValue.str s) = JSNumber.val q ∧ q ≤ 0)) →
      dynFormattedBalances prices priorities
        [{ currency := c, amount := JSValue.str s, blockchain := chain }] =
        Except.ok []) ∧
    ((jsToNumber (JSValue.str s) = JSNumber.posInf ∨
      (∃ q : ℚ, jsToNumber (JSValue.str s) = JSNumber.val q ∧ 0 < q)) →
      dynFormattedBalances prices priorities
        [{ currency := c, amount := JSValue.str s, blockchain := chain }] =
        Except.error JSError.typeError) ∧
    (∀ balances : List DynWalletBalance,
      (∀ b ∈ balances, ∃ q : ℚ, b.amount = JSValue.num q) →
      ∃ out, dynFormattedBalances prices priorities balances =
        Except.ok out) := by
  refine ⟨?_, ?_, ?_⟩
  · intro h
    apply dyn_single_str_excluded
    unfold jsGtZero
    rcases h with h | h | ⟨q, hq, hle⟩
    · rw [h]
    · rw [h]
    · rw [hq]
      exact decide_eq_false (not_lt.mpr hle)
  · intro h
    apply dyn_single_str_typeError
    unfold jsGtZero
    rcases h with h | ⟨q, hq, hpos⟩
    · rw [h]
    · rw [hq]
      exact decide_eq_true hpos
  · intro balances hnum
    have hok := dynFormattedBalances_numeric_isOk prices priorities
      balances hnum
    cases hE : dynFormattedBalances prices priorities balances with
    | error e =>
      rw [hE] at hok
      simp [exceptIsOk] at hok
    | ok out => exact ⟨out, rfl⟩

/-- Witness for C6 (amended) at concrete inputs: `"zzz"` coerces to NaN
and `"-3"` to a negative number (both silently dropped, call succeeds);
`"1e3"`, `"0x10"` and `"Infinity"` coerce to positive values, pass the
filter and raise `TypeError` in the formatting step; an all-numeric
input succeeds with both tables empty. -/
theorem dyn_malformed_no_invalid_input_witness :
    dynFormattedBalances [] []
      [{ currency := "A", amount := JSValue.str "zzz",
         blockchain := "Neo" }] = Except.ok [] ∧
    dynFormattedBalances [] []
      [{ currency := "A", amount := JSValue.str "-3",
         blockchain := "Neo" }] = Except.ok [] ∧
    dynFormattedBalances [] []
      [{ currency := "A", amount := JSValue.str "1e3",
         blockchain := "Neo" }] = Except.error JSError.typeError ∧
    dynFormattedBalances [] []
      [{ currency := "A", amount := JSValue.str "0x10",
         blockchain := "Neo" }] = Except.error JSError.typeError ∧
    dynFormattedBalances [] []
      [{ currency := "A", amount := JSValue.str "Infinity",
         blockchain := "Neo" }] = Except.error JSError.typeError ∧
    ∃ out, dynFormattedBalances [] []
      [{ currency := "A", amount := JSValue.num 1,
         blockchain := "Neo" }] = Except.ok out :=
  ⟨(dyn_malformed_no_invalid_input [] [] "A" "zzz" "Neo").1 (Or.inl rfl),
   (dyn_malformed_no_invalid_input [] [] "A" "-3" "Neo").1
     (Or.inr (Or.inr ⟨(-1 : ℚ) * ((3 : ℕ) : ℚ) * (10 : ℚ) ^ (0 : ℤ), rfl,
       by norm_num⟩)),
   (dyn_malformed_no_invalid_input [] [] "A" "1e3" "Neo").2.1
     (Or.inr ⟨(1 : ℚ) * ((1 : ℕ) : ℚ) * (10 : ℚ) ^ (((3 : ℕ) : ℤ)), rfl,
       by norm_num⟩),
   (dyn_malformed_no_invalid_input [] [] "A" "0x10" "Neo").2.1
     (Or.inr ⟨((16 : ℕ) : ℚ), rfl, by norm_num⟩),
   (dyn_malformed_no_invalid_input [] [] "A" "Infinity" "Neo").2.1
     (Or.inl rfl),
   (dyn_malformed_no_invalid_input [] [] "A" "x" "y").2.2
     [{ currency := "A", amount := JSValue.num 1, blockchain := "Neo" }]
     (by
       intro b hb
       rw [List.mem_singleton] at hb
       subst hb
       exact ⟨1, rfl⟩)⟩

/-- C7: the pipeline is deterministic — it is a pure function of its
three inputs, so two calls on identical inputs return identical
outputs. -/
theorem normalize_deterministic (prices₁ prices₂ : List (String × ℚ))
    (priorities₁ priorities₂ : List (String × Int))
    (balances₁ balances₂ : List WalletBalance)
    (hp : prices₁ = prices₂) (hr : priorities₁ = priorities₂)
    (hb : balances₁ = balances₂) :
    formattedBalances prices₁ priorities₁ balances₁ =
      formattedBalances prices₂ priorities₂ balances₂ := by
  subst hp
  subst hr
  subst hb
  rfl

/-- Witness for C7: two calls on the same concrete inputs agree. -/
theorem normalize_deterministic_witness :
    formattedBalances [("OSMO", 5/2)] [("Osmosis", 100)]
      [{ currency := "OSMO", amount := 3, blockchain := "Osmosis" }] =
    formattedBalances [("OSMO", 5/2)] [("Osmosis", 100)]
      [{ currency := "OSMO", amount := 3, blockchain := "Osmosis" }] :=
  normalize_deterministic [("OSMO", 5/2)] [("OSMO", 5/2)]
    [("Osmosis", 100)] [("Osmosis", 100)]
    [{ currency := "OSMO", amount := 3, blockchain := "Osmosis" }]
    [{ currency := "OSMO", amount := 3, blockchain := "Osmosis" }]
    rfl rfl rfl

/-- C8: the problematic variant's filter retains only records with
`amount ≤ 0`, so its output is empty or consists solely of
non-positive-amount records; consequently it never equals any non-empty
output satisfying the canonical `amount > 0` contract. -/
theorem problematic_variant_incorrect (balances : List WalletBalance) :
    (∀ x ∈ problematicSortedBalances balances, x.amount ≤ 0) ∧
    (∀ out : List WalletBalance, out ≠ [] → (∀ x ∈ out, 0 < x.amount) →
      problematicSortedBalances balances ≠ out) := by
  have hmem : ∀ x ∈ problematicSortedBalances balances, x.amount ≤ 0 := by
    intro x hx
    unfold problematicSortedBalances at hx
    rw [mem_jsStableSort] at hx
    have h2 := (List.mem_filter.mp hx).2
    unfold problematicFilter at h2
    split at h2
    · split at h2
      · assumption
      · exact absurd h2 (by simp)
    · exact absurd h2 (by simp)
  refine ⟨hmem, ?_⟩
  intro out hne hpos heq
  cases out with
  | nil => exact hne rfl
  | cons y ys =>
    have hy : y ∈ problematicSortedBalances balances := by
      rw [heq]
      exact List.mem_cons_self y ys
    exact absurd (hpos y (List.mem_cons_self y ys)) (not_lt.mpr (hmem y hy))

/-- Witness for C8 at the mock data's zero-amount record: it is retained
by the buggy filter, and the buggy output differs from a non-empty
positive-amount list. -/
theorem problematic_variant_incorrect_witness :
    ({ currency := "USDT", amount := 0, blockchain := "Ethereum" } :
      WalletBalance).amount ≤ 0 ∧
    problematicSortedBalances
      [{ currency := "USDT", amount := 0, blockchain := "Ethereum" }] ≠
      [{ currency := "OSMO", amount := 1, blockchain := "Osmosis" }] :=
  ⟨(problematic_variant_incorrect
      [{ currency := "USDT", amount := 0, blockchain := "Ethereum" }]).1
      { currency := "USDT", amount := 0, blockchain := "Ethereum" }
      (by decide),
   (problematic_variant_incorrect
      [{ currency := "USDT", amount := 0, blockchain := "Ethereum" }]).2
      [{ currency := "OSMO", amount := 1, blockchain := "Osmosis" }]
      (by decide) (by decide)⟩

/-- C9: the three `sum_to_n` implementations agree on every non-negative
integer, and each computes `0 + 1 + ⋯ + n = n(n+1)/2` (in particular `0`
at `n = 0`). -/
theorem sum_to_n_equivalent (n : ℕ) :
    sum_to_n_a n = sum_to_n_b n ∧ sum_to_n_b n = sum_to_n_c n ∧
    sum_to_n_a n = n * (n + 1) / 2 := by
  refine ⟨(sum_to_n_b_eq_a n).symm, ?_, sum_to_n_a_gauss n⟩
  rw [sum_to_n_b_eq_a, sum_to_n_c_eq_a]

/-- C10: the sort is stable on ties — restricted to any single resolved
priority value, the sorted output equals the positively-filtered input in
its original order, so equal-priority records keep their relative input
order. -/
theorem sort_stable_on_ties (priorities : List (String × Int))
    (balances : List WalletBalance) (p : Int) :
    (sortedBalances priorities balances).filter
        (fun z => decide (z.priority = p)) =
      ((balancesWithPriority priorities balances).filter
          (fun b => decide (0 < b.amount))).filter
        (fun z => decide (z.priority = p)) := by
  unfold sortedBalances
  exact filter_jsStableSort p _
